import Mathlib

/-!
Verification development for the smartgallery-plugin-model-manager backend.

The Python backend (src/backend.py, src/config.py) is embedded shallowly:
pure helpers become Lean functions; the sqlite catalog becomes an explicit
list of rows with insert-or-replace / update / delete modelled as list
operations; filesystem access and external libraries (hashing, JSON
parsing) become explicit function parameters, so every scan or API call is
a pure function of its inputs.
-/

namespace ModelManager

/-- Python truthiness of an optional string value (None and the empty
string are falsy, every other string is truthy). -/
def truthy : Option String → Bool
  | none => false
  | some s => !(s == "")

/-- Embedding of pick_effective_value (backend.py lines 117-123):
CivitAI value wins when truthy, else the local value when truthy, else
the legacy value. -/
def pick_effective_value (civitai_value local_value legacy_value : Option String) :
    Option String :=
  if truthy civitai_value then civitai_value
  else if truthy local_value then local_value
  else legacy_value

/-- ASCII lower-casing of one character (models str.lower / the sqlite
NOCASE collation on the ASCII range). -/
def lowerAsciiChar (c : Char) : Char :=
  if 'A' ≤ c ∧ c ≤ 'Z' then Char.ofNat (c.toNat + 32) else c

/-- ASCII lower-casing of a string. -/
def lowerAscii (s : String) : String :=
  String.mk (s.data.map lowerAsciiChar)

/-- MODEL_EXTENSIONS from src/config.py. -/
def MODEL_EXTENSIONS : List String := [".ckpt", ".safetensors", ".pt", ".bin"]

/-- str.endswith on the character lists of the two strings. -/
def pyEndsWith (s ext : String) : Bool :=
  ext.data.isSuffixOf s.data

/-- The extension filter of the scan loop (backend.py line 150):
file.lower() must end with one of the recognized extensions. -/
def hasModelExt (fname : String) : Bool :=
  MODEL_EXTENSIONS.any (fun ext => pyEndsWith (lowerAscii fname) ext)

/-- Root part of os.path.splitext for a separator-free basename: cut at
the last dot provided some non-dot character precedes it, else return
the name unchanged (so dotfiles keep their full name). -/
def splitextRoot (s : String) : String :=
  let cs := s.data
  match ((List.range cs.length).filter (fun i => cs.getD i ' ' == '.')).getLast? with
  | none => s
  | some d => if (cs.take d).any (fun c => c != '.') then String.mk (cs.take d) else s

/-- Little-endian value of a byte list (int.from_bytes(_, 'little')). -/
def leNat : List Nat → Nat
  | [] => 0
  | b :: rest => b + 256 * leNat rest

/-- JSON values as produced by json.loads. -/
inductive JValue where
  | jnull : JValue
  | jbool : Bool → JValue
  | jnum : Int → JValue
  | jstr : String → JValue
  | jarr : List JValue → JValue
  | jobj : List (String × JValue) → JValue

/-- Python truthiness of a JSON value. -/
def jTruthy : JValue → Bool
  | .jnull => false
  | .jbool b => b
  | .jnum n => !(n == 0)
  | .jstr s => !(s == "")
  | .jarr xs => !xs.isEmpty
  | .jobj l => !l.isEmpty

/-- Whether a JSON value is an object (a Python dict). -/
def isObj : JValue → Bool
  | .jobj _ => true
  | _ => false

/-- Dict lookup on a JSON object. -/
def jlookup (l : List (String × JValue)) (k : String) : Option JValue :=
  (l.find? (fun p => p.1 == k)).map (fun p => p.2)

/-- External JSON library: decoding header bytes (utf-8 with errors
ignored) followed by json.loads, and json.loads applied to a string
value. A parse failure (or a loads call raising) is the none result. -/
structure PyLib where
  parseBytes : List Nat → Option JValue
  parseStr : String → Option JValue

/-- The ordered trigger key list of extract_safetensors_metadata
(backend.py line 85). -/
def trigger_keys : List String := ["ss_trigger_word", "activation_text", "trigger_word"]

/-- The trigger loop of extract_safetensors_metadata: the first key that
is present in the metadata dict with a truthy value wins. -/
def findTrigger (meta : List (String × JValue)) : Option JValue :=
  trigger_keys.findSome? (fun k =>
    match jlookup meta k with
    | some v => if jTruthy v then some v else none
    | none => none)

/-- The ss_tag_frequency branch of extract_safetensors_metadata
(backend.py lines 76-83): the value must be a string whose JSON parse is
a dict of dicts; all inner keys are collected, deduplicated, sorted, the
first 50 joined with a comma.  Any failure inside the inner try block
yields no tags. -/
def tagsFromFreq (P : PyLib) (v : JValue) : Option String :=
  match v with
  | .jstr s =>
    match P.parseStr s with
    | some (.jobj datasets) =>
      if datasets.all (fun d => isObj d.2) then
        let allTags := datasets.flatMap (fun d =>
          match d.2 with
          | .jobj tags => tags.map (fun p => p.1)
          | _ => [])
        some (String.intercalate ", "
          (((allTags.eraseDups).mergeSort (fun a b => decide (a ≤ b))).take 50))
      else none
    | _ => none
  | _ => none

/-- Embedding of extract_safetensors_metadata (backend.py lines 58-93):
total function over the file bytes; every failure path yields
(none, none). -/
def extract_safetensors_metadata (P : PyLib) (bytes : List Nat) :
    Option JValue × Option String :=
  if bytes.length < 8 then (none, none)
  else
    let header_size := leNat (bytes.take 8)
    if header_size > 100000000 then (none, none)
    else
      match P.parseBytes ((bytes.drop 8).take header_size) with
      | some (.jobj metadata) =>
        match jlookup metadata "__metadata__" with
        | some (.jobj meta) =>
          (findTrigger meta,
           match jlookup meta "ss_tag_frequency" with
           | some v => tagsFromFreq P v
           | none => none)
        | _ => (none, none)
      | _ => (none, none)

/-- External hashing library (hashlib): hex digests of sha256 and md5. -/
structure HashLib where
  sha256hex : List Nat → String
  md5hex : List Nat → String

/-- UTF-8 bytes of a string (str.encode()). -/
def strEncode (s : String) : List Nat :=
  s.toUTF8.toList.map (fun b => b.toNat)

/-- Embedding of fast_model_id (backend.py lines 32-42).  The file is the
pair (readable, content bytes); the head sample is the 64 KiB read at
offset 1 MiB, the tail sample the 64 KiB read after seeking 64 KiB back
from EOF.  The backward seek raises when the file is shorter than
64 KiB, and any failure (including an unreadable file) falls back to the
md5 digest of the path string.  Both digests are truncated to 16 hex
characters. -/
def fast_model_id (H : HashLib) (readable : Bool) (content : List Nat) (path : String) :
    String :=
  if readable ∧ 0x10000 ≤ content.length then
    (H.sha256hex ((content.drop 0x100000).take 0x10000 ++
       (content.drop (content.length - 0x10000)).take 0x10000)).take 16
  else
    (H.md5hex (strEncode path)).take 16

/-- One row of the mm_models table, with all columns touched by
backend.py. -/
structure Row where
  id : String
  type : String
  name : Option String
  path : String
  size : Int
  hash : Option String
  mtime : Int
  scanned_at : Int
  trigger : Option String
  tags : Option String
  name_local : Option String
  name_civitai : Option String
  version_civitai : Option String
  type_civitai : Option String
  base_model_civitai : Option String
  creator_civitai : Option String
  license_civitai : Option String
  civitai_model_url : Option String
  civitai_checked_at : Option Int
  trigger_local : Option String
  trigger_civitai : Option String
  tags_local : Option String
  tags_civitai : Option String
deriving Repr, DecidableEq

/-- One file yielded by the os.walk loop of scan_models: the category it
was found under, its base name, full path, and the stat result. -/
structure ScanFile where
  kind : String
  fname : String
  path : String
  mtime : Int
  size : Int
deriving Repr, DecidableEq

/-- The filesystem-dependent helpers used per file by scan_models:
fast_model_id and extract_safetensors_metadata, abstracted as functions
of the path (their values are determined by the file bytes at that
path at scan time). -/
structure FsModel where
  fileId : String → String
  extract : String → Option String × Option String

/-- One entry of the found_models result list of scan_models (and of the
/list response): the dict built at backend.py lines 198-221, 288-311 and
396-419. -/
structure Emitted where
  id : String
  type : String
  name : Option String
  path : String
  size : Int
  hash : Option String
  mtime : Int
  trigger : Option String
  tags : Option String
  name_local : Option String
  name_civitai : Option String
  version_name : Option String
  type_civitai : Option String
  base_model : Option String
  creator : Option String
  license : Option String
  civitai_model_url : Option String
  civitai_checked_at : Option Int
  trigger_local : Option String
  trigger_civitai : Option String
  tags_local : Option String
  tags_civitai : Option String
deriving Repr, DecidableEq

/-- sqlite INSERT OR REPLACE into mm_models: every row conflicting on
the id primary key or on the unique path column is removed, then the
new row is inserted. -/
def insertOrReplace (db : List Row) (r : Row) : List Row :=
  r :: db.filter (fun x => !(x.id == r.id) && !(x.path == r.path))

/-- The UPDATE mm_models SET name_local = ? WHERE id = ? backfill of the
unchanged fast path (backend.py line 192). -/
def backfillRow (model_id : String) (local_name : String) (r : Row) : Row :=
  if r.id == model_id then { r with name_local := some local_name } else r

/-- The result dict emitted on the unchanged fast path (backend.py lines
198-221), with nl the possibly backfilled name_local value. -/
def fastPathEmit (f : ScanFile) (model_id : String) (ex : Row) (nl : Option String) :
    Emitted where
  id := model_id
  type := f.kind
  name := pick_effective_value ex.name_civitai nl ex.name
  path := f.path
  size := f.size
  hash := ex.hash
  mtime := f.mtime
  trigger := pick_effective_value ex.trigger_civitai ex.trigger_local ex.trigger
  tags := pick_effective_value ex.tags_civitai ex.tags_local ex.tags
  name_local := nl
  name_civitai := ex.name_civitai
  version_name := ex.version_civitai
  type_civitai := ex.type_civitai
  base_model := ex.base_model_civitai
  creator := ex.creator_civitai
  license := ex.license_civitai
  civitai_model_url := ex.civitai_model_url
  civitai_checked_at := ex.civitai_checked_at
  trigger_local := ex.trigger_local
  trigger_civitai := ex.trigger_civitai
  tags_local := ex.tags_local
  tags_civitai := ex.tags_civitai

/-- The full row built and upserted on the changed / new / forced branch
of scan_models (backend.py lines 224-286): fresh extraction fills the
local tier, the remote tier and the stored hash are carried from the
existing row when there is one, and the legacy-compatible columns
receive pick_effective_value applied with no legacy argument (the
Python call omits it, so it defaults to None). -/
def upsertRowFor (fs : FsModel) (now : Int) (f : ScanFile) (exOpt : Option Row) :
    Row :=
  let local_name := splitextRoot f.fname
  let ext := fs.extract f.path
  let name_civitai := exOpt.bind (fun r => r.name_civitai)
  let trigger_civitai := exOpt.bind (fun r => r.trigger_civitai)
  let tags_civitai := exOpt.bind (fun r => r.tags_civitai)
  { id := fs.fileId f.path
    type := f.kind
    name := pick_effective_value name_civitai (some local_name) none
    path := f.path
    size := f.size
    hash := exOpt.bind (fun r => r.hash)
    mtime := f.mtime
    scanned_at := now
    trigger := pick_effective_value trigger_civitai ext.1 none
    tags := pick_effective_value tags_civitai ext.2 none
    name_local := some local_name
    name_civitai := name_civitai
    version_civitai := exOpt.bind (fun r => r.version_civitai)
    type_civitai := exOpt.bind (fun r => r.type_civitai)
    base_model_civitai := exOpt.bind (fun r => r.base_model_civitai)
    creator_civitai := exOpt.bind (fun r => r.creator_civitai)
    license_civitai := exOpt.bind (fun r => r.license_civitai)
    civitai_model_url := exOpt.bind (fun r => r.civitai_model_url)
    civitai_checked_at := exOpt.bind (fun r => r.civitai_checked_at)
    trigger_local := ext.1
    trigger_civitai := trigger_civitai
    tags_local := ext.2
    tags_civitai := tags_civitai }

/-- The result dict emitted right after the upsert (backend.py lines
288-311); it repeats exactly the inserted values. -/
def upsertEmit (r : Row) : Emitted where
  id := r.id
  type := r.type
  name := r.name
  path := r.path
  size := r.size
  hash := r.hash
  mtime := r.mtime
  trigger := r.trigger
  tags := r.tags
  name_local := r.name_local
  name_civitai := r.name_civitai
  version_name := r.version_civitai
  type_civitai := r.type_civitai
  base_model := r.base_model_civitai
  creator := r.creator_civitai
  license := r.license_civitai
  civitai_model_url := r.civitai_model_url
  civitai_checked_at := r.civitai_checked_at
  trigger_local := r.trigger_local
  trigger_civitai := r.trigger_civitai
  tags_local := r.tags_local
  tags_civitai := r.tags_civitai

/-- The body of the per-file loop of scan_models (backend.py lines
153-311) for one recognized file: look the identity up, take the
unchanged fast path when a record exists, forceRescan is off and the
stored mtime matches, otherwise extract afresh and upsert. -/
def scanStep (fs : FsModel) (force : Bool) (now : Int) (db : List Row) (f : ScanFile) :
    List Row × Emitted :=
  let local_name := splitextRoot f.fname
  let model_id := fs.fileId f.path
  match db.find? (fun r => r.id == model_id) with
  | some ex =>
    if !force && ex.mtime == f.mtime then
      let nl := if truthy ex.name_local then ex.name_local else some local_name
      let db1 := if truthy ex.name_local then db
                 else db.map (backfillRow model_id local_name)
      (db1, fastPathEmit f model_id ex nl)
    else
      let r := upsertRowFor fs now f (some ex)
      (insertOrReplace db r, upsertEmit r)
  | none =>
    let r := upsertRowFor fs now f none
    (insertOrReplace db r, upsertEmit r)

/-- The per-file loop of scan_models over the recognized files, threading
the catalog and accumulating the emitted result list. -/
def scanFold (fs : FsModel) (force : Bool) (now : Int) :
    List ScanFile → List Row × List Emitted → List Row × List Emitted
  | [], acc => acc
  | f :: rest, acc =>
    let s := scanStep fs force now acc.1 f
    scanFold fs force now rest (s.1, acc.2 ++ [s.2])

/-- The files of the walk that pass the extension filter (backend.py
line 150); exactly these paths enter scanned_paths. -/
def recognizedFiles (walk : List ScanFile) : List ScanFile :=
  walk.filter (fun f => hasModelExt f.fname)

/-- Embedding of scan_models (backend.py lines 126-329): process every
recognized file of the walk, then delete every catalog row whose path
was not visited in this pass.  Returns the catalog after the pass and
the emitted result list. -/
def scan_models (fs : FsModel) (walk : List ScanFile) (force : Bool) (now : Int)
    (db : List Row) : List Row × List Emitted :=
  let recog := recognizedFiles walk
  let res := scanFold fs force now recog (db, [])
  let scannedPaths := recog.map (fun f => f.path)
  (res.1.filter (fun r => scannedPaths.contains r.path), res.2)

/-- Ordering on the optional name column under the sqlite NOCASE
collation: NULL sorts before every string, strings compare by their
ASCII-folded form. -/
def optLowerLe : Option String → Option String → Bool
  | none, _ => true
  | some _, none => false
  | some a, some b => decide (lowerAscii a ≤ lowerAscii b)

/-- The ORDER BY type, name COLLATE NOCASE comparison of the /list query
(backend.py line 391). -/
def rowLe (a b : Row) : Bool :=
  if a.type == b.type then optLowerLe a.name b.name else decide (a.type ≤ b.type)

/-- The dict built per row by the /list read path (backend.py lines
396-419): effective name / trigger / tags are computed at read time with
pick_effective_value over the remote, local and legacy columns. -/
def listedOf (r : Row) : Emitted where
  id := r.id
  type := r.type
  name := pick_effective_value r.name_civitai r.name_local r.name
  path := r.path
  size := r.size
  hash := r.hash
  mtime := r.mtime
  trigger := pick_effective_value r.trigger_civitai r.trigger_local r.trigger
  tags := pick_effective_value r.tags_civitai r.tags_local r.tags
  name_local := r.name_local
  name_civitai := r.name_civitai
  version_name := r.version_civitai
  type_civitai := r.type_civitai
  base_model := r.base_model_civitai
  creator := r.creator_civitai
  license := r.license_civitai
  civitai_model_url := r.civitai_model_url
  civitai_checked_at := r.civitai_checked_at
  trigger_local := r.trigger_local
  trigger_civitai := r.trigger_civitai
  tags_local := r.tags_local
  tags_civitai := r.tags_civitai

/-- Result of the /list route: the model list and the initial_scan tag. -/
structure ListResult where
  models : List Emitted
  initial_scan : Bool
deriving Repr, DecidableEq

/-- Embedding of api_list_models (backend.py lines 359-427): when the
catalog is empty run a full non-forced scan and tag the result as an
initial scan; otherwise serve the catalog ordered by type then name
NOCASE, without touching the filesystem.  Returns the response and the
catalog afterwards. -/
def api_list_models (fs : FsModel) (walk : List ScanFile) (now : Int)
    (db : List Row) : ListResult × List Row :=
  if db.length == 0 then
    let res := scan_models fs walk false now db
    ({ models := res.2, initial_scan := true }, res.1)
  else
    ({ models := (db.mergeSort rowLe).map listedOf, initial_scan := false }, db)

/-- The civitaiData payload of one /update-civitai update entry; absent
JSON keys are none. -/
structure CivitaiData where
  name : Option String
  versionName : Option String
  modelType : Option String
  baseModel : Option String
  creatorUsername : Option String
  creator : Option String
  license : Option String
  civitaiModelUrl : Option String
  triggerWords : Option String
  tags : Option String
  modelTags : Option String
deriving Repr, DecidableEq

/-- One entry of the updates list of /update-civitai. -/
structure CivitaiUpdate where
  modelId : Option String
  civitaiData : CivitaiData
  civitaiNotFound : Bool
deriving Repr, DecidableEq

/-- data.get(key, '') or None: the value when truthy, else None. -/
def orNone (v : Option String) : Option String :=
  if truthy v then v else none

/-- data.get(k1, '') or data.get(k2, '') or None: the first truthy of
the two values, else None. -/
def firstTruthy2 (a b : Option String) : Option String :=
  if truthy a then a else if truthy b then b else none

/-- The row transformation of the /update-civitai UPDATE statement
(backend.py lines 496-528) for a found record ex: write all remote-tier
columns, stamp civitai_checked_at, and keep the legacy-compatible
effective columns in sync by applying pick_effective_value over the new
remote value, the stored local value, and the stored legacy value of
the selected row ex. -/
def civitaiUpdatedRow (now : Int) (d : CivitaiData) (ex : Row) (r : Row) : Row :=
  let name_civitai := orNone d.name
  let trigger_civitai := firstTruthy2 d.triggerWords d.tags
  let tags_civitai := orNone d.modelTags
  { r with
    name_civitai := name_civitai
    version_civitai := orNone d.versionName
    type_civitai := orNone d.modelType
    base_model_civitai := orNone d.baseModel
    creator_civitai := firstTruthy2 d.creatorUsername d.creator
    license_civitai := orNone d.license
    civitai_model_url := orNone d.civitaiModelUrl
    civitai_checked_at := some now
    trigger_civitai := trigger_civitai
    tags_civitai := tags_civitai
    name := pick_effective_value name_civitai ex.name_local ex.name
    trigger := pick_effective_value trigger_civitai ex.trigger_local ex.trigger
    tags := pick_effective_value tags_civitai ex.tags_local ex.tags }

/-- Processing of one update entry of api_update_civitai_metadata
(backend.py lines 441-531), threading (catalog, updated_count): a falsy
modelId is skipped; civitaiNotFound stamps civitai_checked_at only; an
unknown id is skipped; otherwise the matching rows are rewritten with
civitaiUpdatedRow and the count incremented. -/
def applyCivitaiUpdate (now : Int) (acc : List Row × Nat) (u : CivitaiUpdate) :
    List Row × Nat :=
  let db := acc.1
  match u.modelId with
  | none => acc
  | some mid =>
    if mid == "" then acc
    else if u.civitaiNotFound then
      if db.any (fun r => r.id == mid) then
        (db.map (fun r => if r.id == mid then { r with civitai_checked_at := some now }
                          else r),
         acc.2 + 1)
      else acc
    else
      match db.find? (fun r => r.id == mid) with
      | none => acc
      | some ex =>
        (db.map (fun r => if r.id == mid then civitaiUpdatedRow now u.civitaiData ex r
                          else r),
         acc.2 + 1)

/-- Embedding of api_update_civitai_metadata (backend.py lines 429-541):
fold the update entries over the catalog, returning the catalog and the
updated count. -/
def api_update_civitai_metadata (now : Int) (updates : List CivitaiUpdate)
    (db : List Row) : List Row × Nat :=
  updates.foldl (applyCivitaiUpdate now) (db, 0)

/-- Persisted state touched by the settings routes: the mm_settings
key-value table and the mm_models catalog. -/
structure SettingsState where
  settings : List (String × String)
  models : List Row
deriving Repr, DecidableEq

/-- sqlite INSERT OR REPLACE into mm_settings keyed by key. -/
def setSetting (kvs : List (String × String)) (k v : String) :
    List (String × String) :=
  (k, v) :: kvs.filter (fun p => !(p.1 == k))

/-- str.strip(): drop whitespace from both ends of the string. -/
def pyStrip (s : String) : String :=
  String.mk
    (((s.data.dropWhile (fun c => c.isWhitespace)).reverse.dropWhile
        (fun c => c.isWhitespace)).reverse)

/-- Embedding of api_save_settings (backend.py lines 608-631): strip the
submitted path, reject it when empty or not an existing directory
without touching any state, otherwise persist the models_path setting
and delete every catalog row. -/
def api_save_settings (isDir : String → Bool) (raw : Option String)
    (st : SettingsState) : Except String Unit × SettingsState :=
  let models_path := pyStrip (raw.getD "")
  if models_path == "" then
    (.error "Models path cannot be empty", st)
  else if !(isDir models_path) then
    (.error ("Directory not found: " ++ models_path), st)
  else
    (.ok (),
     { settings := setSetting st.settings "models_path" models_path, models := [] })

/-- A concrete catalog row (all tiers populated with distinct sentinel
values) used to instantiate the theorems below. -/
def exRow (i p : String) (mt : Int) : Row where
  id := i
  type := "loras"
  name := some "historical"
  path := p
  size := 1
  hash := some "h"
  mtime := mt
  scanned_at := 0
  trigger := some "legacy-trigger"
  tags := some "legacy-tags"
  name_local := some "loc"
  name_civitai := none
  version_civitai := none
  type_civitai := none
  base_model_civitai := none
  creator_civitai := none
  license_civitai := none
  civitai_model_url := none
  civitai_checked_at := none
  trigger_local := none
  trigger_civitai := none
  tags_local := none
  tags_civitai := none

/-- A concrete scan file at path p1 with mtime 5. -/
def exFile5 : ScanFile where
  kind := "loras"
  fname := "file.ckpt"
  path := "p1"
  mtime := 5
  size := 1

/-- A concrete scan file at path p1 with mtime 6 (changed on disk). -/
def exFile6 : ScanFile where
  kind := "loras"
  fname := "file.ckpt"
  path := "p1"
  mtime := 6
  size := 2

/-- A concrete scan file at a new path with unchanged mtime 5 (a moved
file). -/
def exFileNew : ScanFile where
  kind := "loras"
  fname := "file.ckpt"
  path := "new"
  mtime := 5
  size := 1

/-- A concrete filesystem where every path has identity id1 and carries
no embedded metadata. -/
def exFs : FsModel where
  fileId := fun _ => "id1"
  extract := fun _ => (none, none)

/-- A concrete filesystem whose identity function is the path itself (so
identities are trivially collision-free). -/
def pathFs : FsModel where
  fileId := fun p => p
  extract := fun _ => (none, none)

/-- A concrete JSON library that fails every parse. -/
def P0 : PyLib where
  parseBytes := fun _ => none
  parseStr := fun _ => none

/-- A concrete hash library with constant digests. -/
def H0 : HashLib where
  sha256hex := fun _ => "sha-digest-0123456789abcdef"
  md5hex := fun _ => "md5-digest-0123456789abcdef"

/-- A concrete civitaiData payload supplying only a remote name. -/
def exData : CivitaiData where
  name := some "RemoteName"
  versionName := none
  modelType := none
  baseModel := none
  creatorUsername := none
  creator := none
  license := none
  civitaiModelUrl := none
  triggerWords := none
  tags := none
  modelTags := none

/-- A concrete /update-civitai entry targeting id1. -/
def exUpdate : CivitaiUpdate where
  modelId := some "id1"
  civitaiData := exData
  civitaiNotFound := false

/-- Claim C1: for every triple (remote, local, legacy),
pick_effective_value returns the remote value whenever it is non-empty
regardless of the other two; otherwise the local value whenever it is
non-empty regardless of legacy; otherwise the legacy value, which may
itself be empty or absent. -/
theorem C1_pick_effective (r l leg : Option String) :
    (truthy r = true → pick_effective_value r l leg = r) ∧
    (truthy r = false → truthy l = true → pick_effective_value r l leg = l) ∧
    (truthy r = false → truthy l = false → pick_effective_value r l leg = leg) := by
  refine ⟨fun h => ?_, fun h1 h2 => ?_, fun h1 h2 => ?_⟩ <;>
    simp [pick_effective_value, *]

/-- Witness for C1 at a concrete triple. -/
theorem C1_pick_effective_witness :
    truthy (some "a") = true ∧
    pick_effective_value (some "a") (some "b") (some "c") = some "a" :=
  ⟨by decide, (C1_pick_effective (some "a") (some "b") (some "c")).1 (by decide)⟩

/-- Claim C6: extract_safetensors_metadata is total (it is a Lean
function) and yields (none, none) on every failure path: fewer than 8
bytes available, declared little-endian header length above the
100000000 ceiling, a failed JSON parse, a parse result that is not an
object, and a missing or non-object metadata entry. -/
theorem C6_extract_guards (P : PyLib) (bytes : List Nat) :
    (bytes.length < 8 → extract_safetensors_metadata P bytes = (none, none)) ∧
    (leNat (bytes.take 8) > 100000000 →
      extract_safetensors_metadata P bytes = (none, none)) ∧
    (P.parseBytes ((bytes.drop 8).take (leNat (bytes.take 8))) = none →
      extract_safetensors_metadata P bytes = (none, none)) ∧
    (∀ v, P.parseBytes ((bytes.drop 8).take (leNat (bytes.take 8))) = some v →
      isObj v = false → extract_safetensors_metadata P bytes = (none, none)) ∧
    (∀ l, P.parseBytes ((bytes.drop 8).take (leNat (bytes.take 8))) =
        some (JValue.jobj l) →
      jlookup l "__metadata__" = none →
      extract_safetensors_metadata P bytes = (none, none)) ∧
    (∀ l v, P.parseBytes ((bytes.drop 8).take (leNat (bytes.take 8))) =
        some (JValue.jobj l) →
      jlookup l "__metadata__" = some v → isObj v = false →
      extract_safetensors_metadata P bytes = (none, none)) := by
  by_cases hlen : bytes.length < 8
  · refine ⟨fun _ => ?_, fun _ => ?_, fun _ => ?_, fun v _ _ => ?_,
      fun l _ _ => ?_, fun l v _ _ _ => ?_⟩ <;>
      simp [extract_safetensors_metadata, hlen]
  · by_cases hbig : leNat (bytes.take 8) > 100000000
    · refine ⟨fun h => absurd h hlen, fun _ => ?_, fun _ => ?_, fun v _ _ => ?_,
        fun l _ _ => ?_, fun l v _ _ _ => ?_⟩ <;>
        simp [extract_safetensors_metadata, hlen, hbig]
    · refine ⟨fun h => absurd h hlen, fun h => absurd h hbig, fun hp => ?_,
        fun v hp hv => ?_, fun l hp hm => ?_, fun l v hp hm hv => ?_⟩
      · simp [extract_safetensors_metadata, hlen, hbig, hp]
      · cases v <;> simp_all [extract_safetensors_metadata, hlen, hbig, isObj]
      · simp [extract_safetensors_metadata, hlen, hbig, hp, hm]
      · cases v <;> simp_all [extract_safetensors_metadata, hlen, hbig, isObj]

/-- Witness for C6 at a concrete input (the empty byte list). -/
theorem C6_extract_guards_witness :
    ([] : List Nat).length < 8 ∧ extract_safetensors_metadata P0 [] = (none, none) :=
  ⟨by decide, (C6_extract_guards P0 []).1 (by decide)⟩

/-- Claim C7: when every read succeeds (readable file of at least
64 KiB) fast_model_id is the first 16 hex characters of the strong
digest of head ++ tail, with head the 64 KiB block read at offset 1 MiB
and tail the 64 KiB block ending at EOF; when the file is unreadable or
too small for the backward seek, it is the truncated weak digest of the
path string.  Being a Lean function of (content, path) it is
deterministic and never raises. -/
theorem C7_fast_id (H : HashLib) (readable : Bool) (content : List Nat)
    (path : String) :
    (readable = true → 0x10000 ≤ content.length →
      fast_model_id H readable content path =
        (H.sha256hex ((content.drop 0x100000).take 0x10000 ++
          (content.drop (content.length - 0x10000)).take 0x10000)).take 16) ∧
    (readable = false ∨ content.length < 0x10000 →
      fast_model_id H readable content path = (H.md5hex (strEncode path)).take 16) := by
  constructor
  · intro h1 h2
    simp [fast_model_id, h1, h2]
  · intro h
    rcases h with h | h
    · simp [fast_model_id, h]
    · simp [fast_model_id, Nat.not_le.mpr h]

/-- Witness for C7 at a concrete small file. -/
theorem C7_fast_id_witness :
    ((true : Bool) = false ∨ ([] : List Nat).length < 0x10000) ∧
    fast_model_id H0 true [] "p" = (H0.md5hex (strEncode "p")).take 16 :=
  ⟨Or.inr (by decide), (C7_fast_id H0 true [] "p").2 (Or.inr (by decide))⟩

/-- Claim C10: for a readable file the path-based fallback engages
exactly when the file is smaller than 64 KiB; a readable file of at
least 64 KiB but at most the 1 MiB head offset does not fall back — its
head sample is empty and its identity is the content digest of its last
64 KiB alone. -/
theorem C10_fallback_boundary (H : HashLib) (content : List Nat) (path : String) :
    (content.length < 0x10000 →
      fast_model_id H true content path = (H.md5hex (strEncode path)).take 16) ∧
    (0x10000 ≤ content.length →
      fast_model_id H true content path =
        (H.sha256hex ((content.drop 0x100000).take 0x10000 ++
          (content.drop (content.length - 0x10000)).take 0x10000)).take 16) ∧
    (0x10000 ≤ content.length → content.length ≤ 0x100000 →
      fast_model_id H true content path =
        (H.sha256hex ((content.drop (content.length - 0x10000)).take 0x10000)).take 16) := by
  refine ⟨fun h => ?_, fun h => ?_, fun h h2 => ?_⟩
  · simp [fast_model_id, Nat.not_le.mpr h]
  · unfold fast_model_id
    rw [if_pos]
    exact ⟨rfl, h⟩
  · have hnil : content.drop 0x100000 = [] := List.drop_eq_nil_of_le h2
    unfold fast_model_id
    rw [if_pos, hnil, List.take_nil, List.nil_append]
    exact ⟨rfl, h⟩

/-- Witness for C10 at a concrete readable file below the 64 KiB
threshold. -/
theorem C10_fallback_boundary_witness :
    ([7] : List Nat).length < 0x10000 ∧
    fast_model_id H0 true [7] "q" = (H0.md5hex (strEncode "q")).take 16 :=
  ⟨by decide, (C10_fallback_boundary H0 [7] "q").1 (by decide)⟩

/-- Claim C9: api_save_settings rejects an empty path or a
non-directory path with a user-facing error and changes no persisted
state (neither settings nor catalog); for an existing directory it
persists the stripped path under the models_path key and deletes every
catalog row. -/
theorem C9_save_settings (isDir : String → Bool) (raw : Option String)
    (st : SettingsState) :
    (pyStrip (raw.getD "") = "" →
      api_save_settings isDir raw st = (.error "Models path cannot be empty", st)) ∧
    (pyStrip (raw.getD "") ≠ "" → isDir (pyStrip (raw.getD "")) = false →
      api_save_settings isDir raw st =
        (.error ("Directory not found: " ++ pyStrip (raw.getD "")), st)) ∧
    (pyStrip (raw.getD "") ≠ "" → isDir (pyStrip (raw.getD "")) = true →
      api_save_settings isDir raw st =
        (.ok (),
         { settings := setSetting st.settings "models_path" (pyStrip (raw.getD "")),
           models := [] }) ∧
      ((setSetting st.settings "models_path" (pyStrip (raw.getD ""))).find?
         (fun p => p.1 == "models_path")).map (fun p => p.2) =
        some (pyStrip (raw.getD ""))) := by
  refine ⟨fun h => ?_, fun h1 h2 => ?_, fun h1 h2 => ⟨?_, ?_⟩⟩
  · simp [api_save_settings, h]
  · simp [api_save_settings, h1, h2]
  · simp [api_save_settings, h1, h2]
  · simp [setSetting]

/-- Witness for C9 at a concrete valid directory path. -/
theorem C9_save_settings_witness :
    pyStrip ((some " /models " : Option String).getD "") ≠ "" ∧
    api_save_settings (fun _ => true) (some " /models ")
        { settings := [], models := [exRow "id1" "p1" 5] } =
      (.ok (), { settings := [("models_path", "/models")], models := [] }) :=
  ⟨by decide,
   by
     have h := (C9_save_settings (fun _ => true) (some " /models ")
       { settings := [], models := [exRow "id1" "p1" 5] }).2.2 (by decide) rfl
     simpa [setSetting] using h.1⟩

/-- Counterexample to claim C3 as stated: a forced rescan of a file
whose record carries legacy-tier values rewrites the stored
legacy-compatible columns (here the name column changes from the stored
historical value to the freshly computed effective value), so more than
the local-tier fields, size, mtime and scanned_at are refreshed. -/
theorem C3_counterexample :
    ((scanStep exFs true 7 [exRow "id1" "p1" 5] exFile5).1.head?.map
       (fun r => r.name)) = some (some "file") ∧
    (exRow "id1" "p1" 5).name = some "historical" ∧
    ((scanStep exFs true 7 [exRow "id1" "p1" 5] exFile5).1.head?.map
       (fun r => r.trigger)) = some none ∧
    (exRow "id1" "p1" 5).trigger = some "legacy-trigger" := by
  refine ⟨?_, rfl, ?_, rfl⟩ <;> rfl

/-- Claim C3 (amended): on the reprocess branch (forced rescan or
changed mtime) with an existing record of the same identity, the upsert
row carries every remote-tier field and the stored strong hash
unchanged from the existing record, while the local-tier fields, size,
mtime and scanned_at are refreshed — and additionally the kind, the
path and the stored legacy-compatible effective columns (name, trigger,
tags) are rewritten with freshly computed effective values. -/
theorem C3_reprocess_remote_carry (fs : FsModel) (force : Bool) (now : Int)
    (db : List Row) (f : ScanFile) (ex : Row)
    (hex : db.find? (fun r => r.id == fs.fileId f.path) = some ex)
    (hch : force = true ∨ ex.mtime ≠ f.mtime) :
    (scanStep fs force now db f).1 =
      insertOrReplace db (upsertRowFor fs now f (some ex)) ∧
    (scanStep fs force now db f).2 = upsertEmit (upsertRowFor fs now f (some ex)) ∧
    (upsertRowFor fs now f (some ex)).name_civitai = ex.name_civitai ∧
    (upsertRowFor fs now f (some ex)).version_civitai = ex.version_civitai ∧
    (upsertRowFor fs now f (some ex)).type_civitai = ex.type_civitai ∧
    (upsertRowFor fs now f (some ex)).base_model_civitai = ex.base_model_civitai ∧
    (upsertRowFor fs now f (some ex)).creator_civitai = ex.creator_civitai ∧
    (upsertRowFor fs now f (some ex)).license_civitai = ex.license_civitai ∧
    (upsertRowFor fs now f (some ex)).civitai_model_url = ex.civitai_model_url ∧
    (upsertRowFor fs now f (some ex)).civitai_checked_at = ex.civitai_checked_at ∧
    (upsertRowFor fs now f (some ex)).trigger_civitai = ex.trigger_civitai ∧
    (upsertRowFor fs now f (some ex)).tags_civitai = ex.tags_civitai ∧
    (upsertRowFor fs now f (some ex)).hash = ex.hash ∧
    (upsertRowFor fs now f (some ex)).scanned_at = now ∧
    (upsertRowFor fs now f (some ex)).mtime = f.mtime ∧
    (upsertRowFor fs now f (some ex)).size = f.size ∧
    (upsertRowFor fs now f (some ex)).trigger_local = (fs.extract f.path).1 ∧
    (upsertRowFor fs now f (some ex)).tags_local = (fs.extract f.path).2 ∧
    (upsertRowFor fs now f (some ex)).name_local = some (splitextRoot f.fname) := by
  have hstep : (scanStep fs force now db f) =
      (insertOrReplace db (upsertRowFor fs now f (some ex)),
       upsertEmit (upsertRowFor fs now f (some ex))) := by
    simp only [scanStep]
    rw [hex]
    rcases hch with h | h
    · simp [h]
    · simp [beq_eq_false_iff_ne.mpr h]
  refine ⟨by rw [hstep], by rw [hstep], ?_, ?_, ?_, ?_, ?_, ?_, ?_, ?_, ?_, ?_,
    ?_, ?_, ?_, ?_, ?_, ?_, ?_⟩ <;> rfl

/-- Witness for the amended C3 at a concrete changed file. -/
theorem C3_reprocess_remote_carry_witness :
    ([exRow "id1" "p1" 5].find?
       (fun r => r.id == exFs.fileId exFile6.path) = some (exRow "id1" "p1" 5)) ∧
    ((false : Bool) = true ∨ (exRow "id1" "p1" 5).mtime ≠ exFile6.mtime) ∧
    (scanStep exFs false 7 [exRow "id1" "p1" 5] exFile6).1 =
      insertOrReplace [exRow "id1" "p1" 5]
        (upsertRowFor exFs 7 exFile6 (some (exRow "id1" "p1" 5))) :=
  ⟨by decide, Or.inr (by decide),
   (C3_reprocess_remote_carry exFs false 7 [exRow "id1" "p1" 5] exFile6
     (exRow "id1" "p1" 5) (by decide) (Or.inr (by decide))).1⟩

/-- Claim C4: on the unchanged fast path (record found by identity, no
forced rescan, stored mtime equal to the current mtime) no metadata
extraction runs (the step does not depend on the extraction function at
all), every stored field is left untouched except that an empty
name_local is backfilled from the filename, and the emitted record
carries effective fields computed by pick_effective_value from the
three stored tiers. -/
theorem C4_fastpath_frame (fs : FsModel) (now : Int) (db : List Row) (f : ScanFile)
    (ex : Row)
    (hex : db.find? (fun r => r.id == fs.fileId f.path) = some ex)
    (hmt : ex.mtime = f.mtime) :
    (∀ g : String → Option String × Option String,
      scanStep { fs with extract := g } false now db f = scanStep fs false now db f) ∧
    (truthy ex.name_local = true → (scanStep fs false now db f).1 = db) ∧
    (truthy ex.name_local = false →
      (scanStep fs false now db f).1 =
        db.map (backfillRow (fs.fileId f.path) (splitextRoot f.fname))) ∧
    (scanStep fs false now db f).2 =
      fastPathEmit f (fs.fileId f.path) ex
        (if truthy ex.name_local then ex.name_local
         else some (splitextRoot f.fname)) ∧
    (∀ nl,
      (fastPathEmit f (fs.fileId f.path) ex nl).name =
        pick_effective_value ex.name_civitai nl ex.name ∧
      (fastPathEmit f (fs.fileId f.path) ex nl).trigger =
        pick_effective_value ex.trigger_civitai ex.trigger_local ex.trigger ∧
      (fastPathEmit f (fs.fileId f.path) ex nl).tags =
        pick_effective_value ex.tags_civitai ex.tags_local ex.tags) := by
  have hmt2 : (ex.mtime == f.mtime) = true := beq_iff_eq.mpr hmt
  have hstep : ∀ fs2 : FsModel, fs2.fileId = fs.fileId →
      scanStep fs2 false now db f =
        ((if truthy ex.name_local then db
          else db.map (backfillRow (fs.fileId f.path) (splitextRoot f.fname))),
         fastPathEmit f (fs.fileId f.path) ex
           (if truthy ex.name_local then ex.name_local
            else some (splitextRoot f.fname))) := by
    intro fs2 hid
    simp only [scanStep]
    rw [hid, hex]
    simp [hmt2]
  refine ⟨fun g => ?_, fun h => ?_, fun h => ?_, ?_, fun nl => ⟨rfl, rfl, rfl⟩⟩
  · rw [hstep { fs with extract := g } rfl, hstep fs rfl]
  · rw [hstep fs rfl]; simp [h]
  · rw [hstep fs rfl]; simp [h]
  · rw [hstep fs rfl]

/-- Witness for C4 at a concrete unchanged file. -/
theorem C4_fastpath_frame_witness :
    ([exRow "id1" "p1" 5].find?
       (fun r => r.id == exFs.fileId exFile5.path) = some (exRow "id1" "p1" 5)) ∧
    (exRow "id1" "p1" 5).mtime = exFile5.mtime ∧
    truthy (exRow "id1" "p1" 5).name_local = true ∧
    (scanStep exFs false 7 [exRow "id1" "p1" 5] exFile5).1 = [exRow "id1" "p1" 5] :=
  ⟨by decide, by decide, by decide,
   (C4_fastpath_frame exFs 7 [exRow "id1" "p1" 5] exFile5 (exRow "id1" "p1" 5)
     (by decide) (by decide)).2.1 (by decide)⟩

/-- Counterexample to claim C5 as stated: the scan upsert of a changed
file writes the trigger column as pick_effective_value over only the
remote and fresh local tiers (the Python call leaves legacy_value at
its None default), so with both of those empty it persists None even
though the record previously stored a legacy trigger, and
pick_effective_value over all three tiers including that stored legacy
value would give the legacy trigger. -/
theorem C5_counterexample :
    ((scanStep exFs false 7 [exRow "id1" "p1" 5] exFile6).1.head?.map
       (fun r => r.trigger)) = some none ∧
    ((scanStep exFs false 7 [exRow "id1" "p1" 5] exFile6).1.head?.map
       (fun r => r.trigger_civitai)) = some none ∧
    ((scanStep exFs false 7 [exRow "id1" "p1" 5] exFile6).1.head?.map
       (fun r => r.trigger_local)) = some none ∧
    (exRow "id1" "p1" 5).trigger = some "legacy-trigger" ∧
    pick_effective_value none none (exRow "id1" "p1" 5).trigger =
      some "legacy-trigger" := by
  refine ⟨?_, ?_, ?_, rfl, rfl⟩ <;> rfl

/-- Claim C5 (amended): at the scan upsert the persisted
legacy-compatible columns equal pick_effective_value applied to the
carried remote tier and the fresh local tier with NO legacy argument
(the stored legacy value is not consulted); at the explicit
metadata-update operation they equal pick_effective_value over all
three tiers including the stored legacy value of the selected record. -/
theorem C5_effective_at_write (fs : FsModel) (now : Int) (f : ScanFile)
    (exOpt : Option Row) (db : List Row) (k : Nat) (u : CivitaiUpdate)
    (mid : String) (ex : Row)
    (hmid : u.modelId = some mid) (hne : mid ≠ "")
    (hnf : u.civitaiNotFound = false)
    (hfind : db.find? (fun r => r.id == mid) = some ex) :
    ((upsertRowFor fs now f exOpt).name =
       pick_effective_value (upsertRowFor fs now f exOpt).name_civitai
         (upsertRowFor fs now f exOpt).name_local none ∧
     (upsertRowFor fs now f exOpt).trigger =
       pick_effective_value (upsertRowFor fs now f exOpt).trigger_civitai
         (upsertRowFor fs now f exOpt).trigger_local none ∧
     (upsertRowFor fs now f exOpt).tags =
       pick_effective_value (upsertRowFor fs now f exOpt).tags_civitai
         (upsertRowFor fs now f exOpt).tags_local none) ∧
    ((applyCivitaiUpdate now (db, k) u).1 =
       db.map (fun r => if r.id == mid then civitaiUpdatedRow now u.civitaiData ex r
               else r) ∧
     (applyCivitaiUpdate now (db, k) u).2 = k + 1 ∧
     ∀ r,
       (civitaiUpdatedRow now u.civitaiData ex r).name =
         pick_effective_value (orNone u.civitaiData.name) ex.name_local ex.name ∧
       (civitaiUpdatedRow now u.civitaiData ex r).trigger =
         pick_effective_value
           (firstTruthy2 u.civitaiData.triggerWords u.civitaiData.tags)
           ex.trigger_local ex.trigger ∧
       (civitaiUpdatedRow now u.civitaiData ex r).tags =
         pick_effective_value (orNone u.civitaiData.modelTags)
           ex.tags_local ex.tags ∧
       (civitaiUpdatedRow now u.civitaiData ex r).name_civitai =
         orNone u.civitaiData.name ∧
       (civitaiUpdatedRow now u.civitaiData ex r).civitai_checked_at = some now) := by
  refine ⟨⟨rfl, rfl, rfl⟩, ?_, ?_, fun r => ⟨rfl, rfl, rfl, rfl, rfl⟩⟩ <;>
  · simp only [applyCivitaiUpdate]
    rw [hmid]
    simp [hne, hnf, hfind]

/-- Witness for the amended C5 at a concrete update entry. -/
theorem C5_effective_at_write_witness :
    exUpdate.modelId = some "id1" ∧
    ("id1" : String) ≠ "" ∧
    exUpdate.civitaiNotFound = false ∧
    ([exRow "id1" "p1" 5].find? (fun r => r.id == "id1") =
      some (exRow "id1" "p1" 5)) ∧
    (applyCivitaiUpdate 9 ([exRow "id1" "p1" 5], 0) exUpdate).2 = 0 + 1 :=
  ⟨rfl, by decide, rfl, by decide,
   (C5_effective_at_write exFs 7 exFile6 none [exRow "id1" "p1" 5] 0 exUpdate
     "id1" (exRow "id1" "p1" 5) rfl (by decide) rfl (by decide)).2.2.1⟩

lemma optLowerLe_total (a b : Option String) :
    (optLowerLe a b || optLowerLe b a) = true := by
  cases a <;> cases b <;> simp [optLowerLe]
  exact le_total _ _

lemma optLowerLe_trans (a b c : Option String) (h1 : optLowerLe a b = true)
    (h2 : optLowerLe b c = true) : optLowerLe a c = true := by
  cases a <;> cases b <;> cases c <;> simp_all [optLowerLe]
  exact le_trans h1 h2

lemma rowLe_total (a b : Row) : (rowLe a b || rowLe b a) = true := by
  unfold rowLe
  by_cases h : a.type = b.type
  · simp [h, optLowerLe_total]
  · have h2 : ¬ b.type = a.type := fun e => h e.symm
    simp only [beq_iff_eq, h, h2, if_false, Bool.or_eq_true, decide_eq_true_eq]
    exact le_total _ _

lemma rowLe_trans (a b c : Row) (h1 : rowLe a b = true) (h2 : rowLe b c = true) :
    rowLe a c = true := by
  unfold rowLe at h1 h2 ⊢
  by_cases hab : a.type = b.type <;> by_cases hbc : b.type = c.type
  · have hac : a.type = c.type := hab.trans hbc
    simp only [beq_iff_eq, hab, hbc, hac, if_true] at h1 h2 ⊢
    exact optLowerLe_trans _ _ _ h1 h2
  · have hac : ¬ a.type = c.type := fun e => hbc (hab ▸ e)
    simp only [beq_iff_eq, hab, hbc, hac, if_true, if_false,
      decide_eq_true_eq] at h1 h2 ⊢
    exact hab ▸ h2
  · have hac : ¬ a.type = c.type := fun e => hab (e.trans hbc.symm)
    simp only [beq_iff_eq, hab, hbc, hac, if_true, if_false,
      decide_eq_true_eq] at h1 h2 ⊢
    exact hbc ▸ h1
  · simp only [beq_iff_eq, hab, hbc, if_false, decide_eq_true_eq] at h1 h2
    by_cases hac : a.type = c.type
    · exact absurd (le_antisymm h1 (hac ▸ h2)) hab
    · simp only [beq_iff_eq, hac, if_false, decide_eq_true_eq]
      exact le_trans h1 h2

/-- Claim C8: with a non-empty catalog, api_list_models performs no scan
and no filesystem access (its result does not depend on the filesystem
parameters), leaves the catalog unchanged, and returns all catalog
records ordered by kind then name case-insensitively, each with
effective fields computed at read time by pick_effective_value over the
three stored tiers; with an empty catalog it runs a full non-forced
scan and returns that output tagged as an initial scan. -/
theorem C8_list_models (fs : FsModel) (walk : List ScanFile) (now : Int)
    (db : List Row) :
    (db = [] →
      api_list_models fs walk now db =
        ({ models := (scan_models fs walk false now db).2, initial_scan := true },
         (scan_models fs walk false now db).1)) ∧
    (db ≠ [] →
      (∀ fs2 walk2, api_list_models fs2 walk2 now db =
         api_list_models fs walk now db) ∧
      (api_list_models fs walk now db).2 = db ∧
      (api_list_models fs walk now db).1.initial_scan = false ∧
      (api_list_models fs walk now db).1.models =
        (db.mergeSort rowLe).map listedOf ∧
      (db.mergeSort rowLe).Perm db ∧
      List.Pairwise (fun a b => rowLe a b = true) (db.mergeSort rowLe) ∧
      ∀ r : Row,
        (listedOf r).name =
          pick_effective_value r.name_civitai r.name_local r.name ∧
        (listedOf r).trigger =
          pick_effective_value r.trigger_civitai r.trigger_local r.trigger ∧
        (listedOf r).tags =
          pick_effective_value r.tags_civitai r.tags_local r.tags) := by
  constructor
  · intro h
    subst h
    rfl
  · intro h
    have hlen : (db.length == 0) = false := by
      simpa [List.length_eq_zero] using h
    refine ⟨fun fs2 walk2 => ?_, ?_, ?_, ?_, List.mergeSort_perm db rowLe,
      List.sorted_mergeSort rowLe_trans rowLe_total db,
      fun r => ⟨rfl, rfl, rfl⟩⟩ <;>
      simp [api_list_models, hlen]

/-- Witness for C8 at a concrete one-row catalog. -/
theorem C8_list_models_witness :
    ([exRow "id1" "p1" 5] ≠ ([] : List Row)) ∧
    (api_list_models exFs [] 0 [exRow "id1" "p1" 5]).2 = [exRow "id1" "p1" 5] :=
  ⟨by decide,
   ((C8_list_models exFs [] 0 [exRow "id1" "p1" 5]).2 (by decide)).2.1⟩

lemma upsertRowFor_id (fs : FsModel) (now : Int) (f : ScanFile)
    (exOpt : Option Row) : (upsertRowFor fs now f exOpt).id = fs.fileId f.path := rfl

lemma upsertRowFor_path (fs : FsModel) (now : Int) (f : ScanFile)
    (exOpt : Option Row) : (upsertRowFor fs now f exOpt).path = f.path := rfl

lemma backfillRow_id (i n : String) (r : Row) : (backfillRow i n r).id = r.id := by
  unfold backfillRow
  split <;> rfl

lemma backfillRow_path (i n : String) (r : Row) :
    (backfillRow i n r).path = r.path := by
  unfold backfillRow
  split <;> rfl

lemma scanStep_find_none (fs : FsModel) (force : Bool) (now : Int) (db : List Row)
    (f : ScanFile)
    (hex : db.find? (fun r => r.id == fs.fileId f.path) = none) :
    scanStep fs force now db f =
      (insertOrReplace db (upsertRowFor fs now f none),
       upsertEmit (upsertRowFor fs now f none)) := by
  simp only [scanStep]
  rw [hex]

lemma scanStep_find_fast (fs : FsModel) (force : Bool) (now : Int) (db : List Row)
    (f : ScanFile) (ex : Row)
    (hex : db.find? (fun r => r.id == fs.fileId f.path) = some ex)
    (hc : (!force && ex.mtime == f.mtime) = true) :
    scanStep fs force now db f =
      ((if truthy ex.name_local then db
        else db.map (backfillRow (fs.fileId f.path) (splitextRoot f.fname))),
       fastPathEmit f (fs.fileId f.path) ex
         (if truthy ex.name_local then ex.name_local
          else some (splitextRoot f.fname))) := by
  simp only [scanStep]
  rw [hex]
  exact if_pos hc

lemma scanStep_find_change (fs : FsModel) (force : Bool) (now : Int) (db : List Row)
    (f : ScanFile) (ex : Row)
    (hex : db.find? (fun r => r.id == fs.fileId f.path) = some ex)
    (hc : (!force && ex.mtime == f.mtime) = false) :
    scanStep fs force now db f =
      (insertOrReplace db (upsertRowFor fs now f (some ex)),
       upsertEmit (upsertRowFor fs now f (some ex))) := by
  simp only [scanStep]
  rw [hex]
  exact if_neg (by simp [hc])

lemma mem_insertOrReplace_elim (db : List Row) (nr r2 : Row)
    (h : r2 ∈ insertOrReplace db nr) : r2 = nr ∨ r2 ∈ db := by
  rcases List.mem_cons.mp h with h | h
  · exact Or.inl h
  · exact Or.inr (List.mem_of_mem_filter h)

lemma exists_path_insertOrReplace (db : List Row) (nr : Row) (p : String)
    (hf2 : ∀ r ∈ db, r.id = nr.id → r.path = nr.path)
    (hp : ∃ r ∈ db, r.path = p) :
    ∃ r2 ∈ insertOrReplace db nr, r2.path = p := by
  obtain ⟨r, hr, hrp⟩ := hp
  by_cases hid : r.id = nr.id
  · refine ⟨nr, List.mem_cons_self _ _, ?_⟩
    rw [← hf2 r hr hid]
    exact hrp
  · by_cases hpath : r.path = nr.path
    · refine ⟨nr, List.mem_cons_self _ _, ?_⟩
      rw [← hpath]
      exact hrp
    · refine ⟨r, List.mem_cons_of_mem _ (List.mem_filter.mpr ⟨hr, ?_⟩), hrp⟩
      simp [hid, hpath]

lemma scanStep_path_mono (fs : FsModel) (force : Bool) (now : Int) (db : List Row)
    (f : ScanFile) (p : String)
    (hf : ∀ r ∈ db, r.id = fs.fileId f.path → r.path = f.path)
    (hp : ∃ r ∈ db, r.path = p) :
    ∃ r2 ∈ (scanStep fs force now db f).1, r2.path = p := by
  have hf2 : ∀ exOpt : Option Row, ∀ r ∈ db,
      r.id = (upsertRowFor fs now f exOpt).id →
      r.path = (upsertRowFor fs now f exOpt).path := by
    intro exOpt r hr hid
    rw [upsertRowFor_path]
    exact hf r hr (by rw [← upsertRowFor_id fs now f exOpt]; exact hid)
  rcases hfind : db.find? (fun r => r.id == fs.fileId f.path) with _ | ex
  · rw [scanStep_find_none fs force now db f hfind]
    exact exists_path_insertOrReplace db _ p (hf2 none) hp
  · by_cases hc : (!force && ex.mtime == f.mtime) = true
    · rw [scanStep_find_fast fs force now db f ex hfind hc]
      obtain ⟨r, hr, hrp⟩ := hp
      by_cases ht : truthy ex.name_local = true
      · rw [if_pos ht]
        exact ⟨r, hr, hrp⟩
      · rw [if_neg ht]
        refine ⟨backfillRow (fs.fileId f.path) (splitextRoot f.fname) r,
          List.mem_map_of_mem _ hr, ?_⟩
        rw [backfillRow_path]
        exact hrp
    · have hc2 : (!force && ex.mtime == f.mtime) = false := by
        simpa using hc
      rw [scanStep_find_change fs force now db f ex hfind hc2]
      exact exists_path_insertOrReplace db _ p (hf2 (some ex)) hp

lemma scanStep_pres (fs : FsModel) (force : Bool) (now : Int) (db : List Row)
    (f g : ScanFile) (r2 : Row)
    (hfg : fs.fileId f.path = fs.fileId g.path → f.path = g.path)
    (hg : ∀ r ∈ db, r.id = fs.fileId g.path → r.path = g.path)
    (h2 : r2 ∈ (scanStep fs force now db f).1)
    (hid : r2.id = fs.fileId g.path) : r2.path = g.path := by
  have hups : ∀ exOpt : Option Row, r2 = upsertRowFor fs now f exOpt →
      r2.path = g.path := by
    intro exOpt he
    subst he
    rw [upsertRowFor_path]
    exact hfg (by rw [← upsertRowFor_id fs now f exOpt]; exact hid)
  rcases hfind : db.find? (fun r => r.id == fs.fileId f.path) with _ | ex
  · rw [scanStep_find_none fs force now db f hfind] at h2
    rcases mem_insertOrReplace_elim db _ r2 h2 with he | hmem
    · exact hups none he
    · exact hg r2 hmem hid
  · by_cases hc : (!force && ex.mtime == f.mtime) = true
    · rw [scanStep_find_fast fs force now db f ex hfind hc] at h2
      by_cases ht : truthy ex.name_local = true
      · rw [if_pos ht] at h2
        exact hg r2 h2 hid
      · rw [if_neg ht] at h2
        obtain ⟨r, hr, he⟩ := List.mem_map.mp h2
        subst he
        rw [backfillRow_path]
        exact hg r hr (by rw [← backfillRow_id (fs.fileId f.path) (splitextRoot f.fname) r]; exact hid)
    · have hc2 : (!force && ex.mtime == f.mtime) = false := by
        simpa using hc
      rw [scanStep_find_change fs force now db f ex hfind hc2] at h2
      rcases mem_insertOrReplace_elim db _ r2 h2 with he | hmem
      · exact hups (some ex) he
      · exact hg r2 hmem hid

lemma scanStep_covers_self (fs : FsModel) (force : Bool) (now : Int) (db : List Row)
    (f : ScanFile)
    (hf : ∀ r ∈ db, r.id = fs.fileId f.path → r.path = f.path) :
    ∃ r2 ∈ (scanStep fs force now db f).1, r2.path = f.path := by
  rcases hfind : db.find? (fun r => r.id == fs.fileId f.path) with _ | ex
  · rw [scanStep_find_none fs force now db f hfind]
    exact ⟨upsertRowFor fs now f none, List.mem_cons_self _ _,
      upsertRowFor_path fs now f none⟩
  · have hexmem : ex ∈ db := List.mem_of_find?_eq_some hfind
    have hexid : ex.id = fs.fileId f.path := by
      have := List.find?_some hfind
      simpa [beq_iff_eq] using this
    have hexpath : ex.path = f.path := hf ex hexmem hexid
    by_cases hc : (!force && ex.mtime == f.mtime) = true
    · rw [scanStep_find_fast fs force now db f ex hfind hc]
      by_cases ht : truthy ex.name_local = true
      · rw [if_pos ht]
        exact ⟨ex, hexmem, hexpath⟩
      · rw [if_neg ht]
        refine ⟨backfillRow (fs.fileId f.path) (splitextRoot f.fname) ex,
          List.mem_map_of_mem _ hexmem, ?_⟩
        rw [backfillRow_path]
        exact hexpath
    · have hc2 : (!force && ex.mtime == f.mtime) = false := by
        simpa using hc
      rw [scanStep_find_change fs force now db f ex hfind hc2]
      exact ⟨upsertRowFor fs now f (some ex), List.mem_cons_self _ _,
        upsertRowFor_path fs now f (some ex)⟩

lemma scanStep_H2_rest (fs : FsModel) (force : Bool) (now : Int) (db : List Row)
    (f : ScanFile) (rest : List ScanFile)
    (h2 : ∀ r ∈ db, ∀ g ∈ f :: rest, r.id = fs.fileId g.path → r.path = g.path)
    (hinj : ∀ a ∈ f :: rest, ∀ b ∈ f :: rest,
      fs.fileId a.path = fs.fileId b.path → a.path = b.path) :
    ∀ r ∈ (scanStep fs force now db f).1, ∀ g ∈ rest,
      r.id = fs.fileId g.path → r.path = g.path :=
  fun r hr g hg hid =>
    scanStep_pres fs force now db f g r
      (hinj f (List.mem_cons_self f rest) g (List.mem_cons_of_mem f hg))
      (fun r0 hr0 hid0 => h2 r0 hr0 g (List.mem_cons_of_mem f hg) hid0) hr hid

lemma scanFold_fst_mono (fs : FsModel) (force : Bool) (now : Int)
    (todo : List ScanFile) :
    ∀ (db : List Row) (acc : List Emitted) (p : String),
      (∀ r ∈ db, ∀ f ∈ todo, r.id = fs.fileId f.path → r.path = f.path) →
      (∀ a ∈ todo, ∀ b ∈ todo,
        fs.fileId a.path = fs.fileId b.path → a.path = b.path) →
      (∃ r ∈ db, r.path = p) →
      ∃ r ∈ (scanFold fs force now todo (db, acc)).1, r.path = p := by
  induction todo with
  | nil =>
    intro db acc p _ _ hp
    exact hp
  | cons f rest ih =>
    intro db acc p h2 hinj hp
    simp only [scanFold]
    refine ih (scanStep fs force now db f).1 _ p
      (scanStep_H2_rest fs force now db f rest h2 hinj)
      (fun a ha b hb => hinj a (List.mem_cons_of_mem f ha) b (List.mem_cons_of_mem f hb))
      (scanStep_path_mono fs force now db f p
        (fun r hr hid => h2 r hr f (List.mem_cons_self f rest) hid) hp)

lemma scanFold_fst_covers (fs : FsModel) (force : Bool) (now : Int)
    (todo : List ScanFile) :
    ∀ (db : List Row) (acc : List Emitted),
      (∀ r ∈ db, ∀ f ∈ todo, r.id = fs.fileId f.path → r.path = f.path) →
      (∀ a ∈ todo, ∀ b ∈ todo,
        fs.fileId a.path = fs.fileId b.path → a.path = b.path) →
      ∀ g ∈ todo, ∃ r ∈ (scanFold fs force now todo (db, acc)).1, r.path = g.path := by
  induction todo with
  | nil =>
    intro db acc _ _ g hg
    cases hg
  | cons f rest ih =>
    intro db acc h2 hinj g hg
    simp only [scanFold]
    rcases List.mem_cons.mp hg with he | hg2
    · subst he
      exact scanFold_fst_mono fs force now rest (scanStep fs force now db g).1 _ g.path
        (scanStep_H2_rest fs force now db g rest h2 hinj)
        (fun a ha b hb => hinj a (List.mem_cons_of_mem g ha) b (List.mem_cons_of_mem g hb))
        (scanStep_covers_self fs force now db g
          (fun r hr hid => h2 r hr g (List.mem_cons_self g rest) hid))
    · exact ih (scanStep fs force now db f).1 _
        (scanStep_H2_rest fs force now db f rest h2 hinj)
        (fun a ha b hb => hinj a (List.mem_cons_of_mem f ha) b (List.mem_cons_of_mem f hb))
        g hg2

/-- Counterexample to claim C2 as stated: a file moved to a new path
with identical content (same identity) and unchanged mtime takes the
unchanged fast path, so its record is never re-written and still holds
the old path; the pruning step then deletes that record because the old
path was not enumerated.  The scan ends with an empty catalog although
the recognized file at path new is present on disk. -/
theorem C2_counterexample :
    (scan_models exFs [exFileNew] false 0 [exRow "id1" "old" 5]).1 = [] ∧
    (recognizedFiles [exFileNew]).map (fun f => f.path) = ["new"] := by
  constructor <;> rfl

/-- Claim C2 (amended): at the end of a full scan pass the set of
catalog paths equals exactly the set of enumerated recognized file
paths, provided the cheap identity function is collision-free on the
enumerated files and no pre-existing record whose identity matches an
enumerated file is stored under a different path (no file was moved
while keeping identity and mtime since the last pass; without that
proviso the claim fails as shown by the counterexample). -/
theorem C2_scan_catalog_matches (fs : FsModel) (walk : List ScanFile)
    (force : Bool) (now : Int) (db : List Row)
    (hinj : ∀ a ∈ recognizedFiles walk, ∀ b ∈ recognizedFiles walk,
      fs.fileId a.path = fs.fileId b.path → a.path = b.path)
    (hmoved : ∀ r ∈ db, ∀ f ∈ recognizedFiles walk,
      r.id = fs.fileId f.path → r.path = f.path) :
    ∀ p, (∃ r ∈ (scan_models fs walk force now db).1, r.path = p) ↔
         (∃ f ∈ recognizedFiles walk, f.path = p) := by
  intro p
  have hsm : (scan_models fs walk force now db).1 =
      (scanFold fs force now (recognizedFiles walk) (db, [])).1.filter
        (fun r => ((recognizedFiles walk).map (fun f => f.path)).contains r.path) :=
    rfl
  rw [hsm]
  constructor
  · rintro ⟨r, hr, rfl⟩
    have hmem := List.mem_filter.mp hr
    have hin : r.path ∈ (recognizedFiles walk).map (fun f => f.path) := by
      simpa [List.elem_iff] using hmem.2
    obtain ⟨f, hf, he⟩ := List.mem_map.mp hin
    exact ⟨f, hf, he⟩
  · rintro ⟨f, hf, rfl⟩
    obtain ⟨r, hr, hrp⟩ :=
      scanFold_fst_covers fs force now (recognizedFiles walk) db [] hmoved hinj f hf
    refine ⟨r, List.mem_filter.mpr ⟨hr, ?_⟩, hrp⟩
    have : r.path ∈ (recognizedFiles walk).map (fun g => g.path) := by
      rw [hrp]
      exact List.mem_map_of_mem _ hf
    simpa [List.elem_iff] using this

/-- Witness for the amended C2: a fresh scan over one recognized file
and an empty catalog ends with that path in the catalog. -/
theorem C2_scan_catalog_matches_witness :
    ∃ r ∈ (scan_models pathFs [exFile5] false 0 []).1, r.path = "p1" :=
  (C2_scan_catalog_matches pathFs [exFile5] false 0 []
      (fun a _ b _ h => h)
      (fun r hr => absurd hr (List.not_mem_nil r)) "p1").mpr
    ⟨exFile5, by decide, rfl⟩

end ModelManager
